import Mathlib

/-!
Verification of the cell_classification repository.

The Promix training loop (`promix_naive.py`) and the prediction
preprocessing (`application.py`) are embedded shallowly: losses,
pixel values and thresholds become rationals, tensors become lists,
pandas data frames become lists of records, and the mutable
per-marker threshold dictionary becomes an explicit association
list threaded through the functions.  The data-preparation pipeline
(`segmentation_data_prep.py`) is not part of the sources; the parts
of it the claims need are modelled from the specification text and
are marked as such in their doc comments.
-/

namespace CellClassification

/-- Clip a rational to the interval `[lo, hi]` (numpy `clip`,
`tf.clip_by_value`). -/
def clipQ (lo hi x : ℚ) : ℚ := max lo (min x hi)

/-- Embedding of `np.quantile` with the default linear interpolation: sort the data,
take position `q * (n - 1)` and interpolate linearly between the two
neighbouring order statistics.  Empty input is mapped to `0` (numpy
raises there; all call sites guard against it). -/
def npQuantile (xs : List ℚ) (q : ℚ) : ℚ :=
  if xs = [] then 0
  else
    let s := List.insertionSort (· ≤ ·) xs
    let n := s.length
    let h := q * ((n : ℚ) - 1)
    let i := (Int.floor h).toNat
    let j := min (i + 1) (n - 1)
    let lo := s.getD i 0
    let hi := s.getD j 0
    lo + (h - (i : ℚ)) * (hi - lo)

/-- One row of the per-cell activity table (`activity_df` in
`promix_naive.py`): instance label, ground-truth activity and
cell-mean loss. -/
structure Cell where
  label : ℤ
  activity : ℕ
  loss : ℚ
deriving DecidableEq, Repr

/-- The pair of per-marker thresholds kept in
`class_wise_loss_quantiles[marker]` and in
`confidence_loss_thresholds`. -/
structure Thresholds where
  positive : ℚ
  negative : ℚ
deriving DecidableEq, Repr

/-- The mutable dictionary `self.class_wise_loss_quantiles`, embedded as
an association list from marker name to thresholds. -/
abbrev QuantileState := List (String × Thresholds)

/-- Dictionary lookup on the embedded threshold state. -/
def lookupThr : QuantileState → String → Option Thresholds
  | [], _ => none
  | (k, v) :: rest, m => if k = m then some v else lookupThr rest m

/-- Dictionary write on the embedded threshold state: replace the entry
in place if present, otherwise append it (Python dict insertion
order). -/
def setThr : QuantileState → String → Thresholds → QuantileState
  | [], m, t => [(m, t)]
  | (k, v) :: rest, m, t =>
      if k = m then (m, t) :: rest else (k, v) :: setThr rest m t

/-- Embedding of `PromixNaive.class_wise_loss_selection`: per marker, blend the
stored threshold with the fresh loss quantile of each non-empty
ground-truth subset via the EMA weight, then keep the rows at or below
the updated threshold.  A marker seen for the first time gets both
thresholds initialised to `1.0` and the EMA weight forced to `1.0`. -/
def class_wise_loss_selection (state : QuantileState) (ema0 q : ℚ)
    (positive_df negative_df : List Cell) (mark : String) :
    QuantileState × List (List Cell) :=
  let stEma :=
    if (lookupThr state mark).isSome then (state, ema0)
    else (setThr state mark ⟨1, 1⟩, 1)
  let st1 := stEma.1
  let ema := stEma.2
  let t1 := (lookupThr st1 mark).getD ⟨1, 1⟩
  let stSel1 :=
    if positive_df = [] then (st1, ([] : List (List Cell)))
    else
      let newP := t1.positive * (1 - ema)
        + npQuantile (positive_df.map (·.loss)) q * ema
      (setThr st1 mark ⟨newP, t1.negative⟩,
        [positive_df.filter (fun c => c.loss ≤ newP)])
  let st2 := stSel1.1
  let t2 := (lookupThr st2 mark).getD ⟨1, 1⟩
  let stSel2 :=
    if negative_df = [] then (st2, ([] : List (List Cell)))
    else
      let newN := t2.negative * (1 - ema)
        + npQuantile (negative_df.map (·.loss)) q * ema
      (setThr st2 mark ⟨t2.positive, newN⟩,
        [negative_df.filter (fun c => c.loss ≤ newN)])
  (stSel2.1, stSel1.2 ++ stSel2.2)

/-- Embedding of `PromixNaive.matched_high_confidence_selection_thresholds`: the loss
function is evaluated on the column vector of targets `[0, 1]` against
the column vector of predictions `[neg_thresh, pos_thresh]`; entry `0`
of the result is stored under the key `"positive"` and entry `1` under
`"negative"`. -/
def matched_high_confidence_selection_thresholds (loss_fn : ℚ → ℚ → ℚ)
    (neg_thresh pos_thresh : ℚ) : Thresholds :=
  { positive := loss_fn 0 neg_thresh
    negative := loss_fn 1 pos_thresh }

/-- Embedding of `PromixNaive.matched_high_confidence_selection`: per non-empty
ground-truth subset, keep the rows whose loss is strictly below the
fixed confidence threshold of that subset's key. -/
def matched_high_confidence_selection (confThr : Thresholds)
    (positive_df negative_df : List Cell) : List (List Cell) :=
  (if positive_df = [] then []
   else [positive_df.filter (fun c => c.loss < confThr.positive)]) ++
  (if negative_df = [] then []
   else [negative_df.filter (fun c => c.loss < confThr.negative)])

/-- The squared-error loss used as a concrete instance of the abstract
training objective when evaluating the threshold computation on
explicit numbers. -/
def sqLoss (y p : ℚ) : ℚ := (y - p) ^ 2

/-- Helper of `uniqueFirst`: drop every element already seen. -/
def uniqueAux : List ℤ → List ℤ → List ℤ
  | _, [] => []
  | seen, x :: xs =>
      if x ∈ seen then uniqueAux seen xs else x :: uniqueAux (x :: seen) xs

/-- Embedding of `tf.unique`: distinct values in order of first occurrence. -/
def uniqueFirst (l : List ℤ) : List ℤ := uniqueAux [] l

/-- Embedding of `np.unique`: distinct values in ascending order. -/
def npUniqueInt (l : List ℤ) : List ℤ :=
  uniqueFirst (List.insertionSort (· ≤ ·) l)

/-- Mean of the loss values attached to label `u` in a flattened
(label, loss) pixel list; this is exactly the contract of
`tf.math.segment_mean` at segment id `u` (the sort in the source only
satisfies its sorted-ids precondition). -/
def cellMean (pairs : List (ℤ × ℚ)) (u : ℤ) : ℚ :=
  ((pairs.filter (fun p => p.1 = u)).map (·.2)).sum
    / ((pairs.filter (fun p => p.1 = u)).length : ℚ)

/-- Embedding of `PromixNaive.reduce_to_cells`: flatten loss image and instance mask,
take the unique labels (`tf.unique`, first-occurrence order), sort the
(label, loss) pairs by label (`tf.argsort` + `tf.gather`), and gather
the per-label `tf.math.segment_mean` at each unique label. -/
def reduce_to_cells (pred : List ℚ) (instance_mask : List ℤ) :
    List ℤ × List ℚ :=
  let pairs := instance_mask.zip pred
  let sorted := List.insertionSort (fun a b => a.1 ≤ b.1) pairs
  let uniques := uniqueFirst instance_mask
  (uniques, uniques.map (fun u => cellMean sorted u))

/-- One batch element of `PromixNaive.batchwise_loss_selection`: an
empty cell table yields an all-zero mask; otherwise the table is split
by ground-truth activity, both selection heuristics run, and the mask
is `1` exactly at the pixels whose instance label is among the selected
labels (`np.unique` + `tf.equal` + `tf.reduce_any`). -/
def batch_element_loss_selection (st : QuantileState) (ema q : ℚ)
    (confThr : Thresholds) (df : List Cell) (maskPixels : List ℤ)
    (mark : String) : QuantileState × List ℚ :=
  if df = [] then (st, maskPixels.map (fun _ => 0))
  else
    let positive_df := df.filter (fun c => c.activity = 1)
    let negative_df := df.filter (fun c => c.activity = 0)
    let stCw := class_wise_loss_selection st ema q positive_df negative_df mark
    let mh := matched_high_confidence_selection confThr positive_df negative_df
    let labels := npUniqueInt (((stCw.2 ++ mh).flatten).map (·.label))
    (stCw.1, maskPixels.map (fun p => if p ∈ labels then 1 else 0))

/-- Embedding of `PromixNaive.batchwise_loss_selection`: iterate
`batch_element_loss_selection` over the batch elements, threading the
mutable threshold state through in batch order. -/
def batchwise_loss_selection (ema q : ℚ) (confThr : Thresholds) :
    QuantileState → List (List Cell × List ℤ × String) →
    QuantileState × List (List ℚ)
  | st, [] => (st, [])
  | st, (df, mask, mark) :: rest =>
      let e := batch_element_loss_selection st ema q confThr df mask mark
      let r := batchwise_loss_selection ema q confThr e.1 rest
      (r.1, e.2 :: r.2)

/-- The line `loss_mask *= tf.cast(tf.squeeze(batch["binary_mask"], -1),
tf.float32)` of `PromixNaive.train`. -/
def apply_binary_mask (loss_mask binary_mask : List ℚ) : List ℚ :=
  List.zipWith (· * ·) loss_mask binary_mask

/-- The line `loss_mask_aug = tf.where(y_aug == 2, 0, loss_mask_aug)` of
`PromixNaive.train_step`. -/
def train_step_zero_sentinel (y_aug loss_mask_aug : List ℚ) : List ℚ :=
  List.zipWith (fun y m => if y = 2 then 0 else m) y_aug loss_mask_aug

/-- The line `y_aug = tf.clip_by_value(y_aug, 0, 1)` of
`PromixNaive.train_step`. -/
def train_step_clip_target (y_aug : List ℚ) : List ℚ :=
  y_aug.map (clipQ 0 1)

/-- The lines `background = tf.cast(tf.where(x_binary_aug_mix == 0, 1,
0), tf.float32)` and `loss_mask_aug_mix += background` of
`PromixNaive.train_step`. -/
def train_step_add_background (x_binary_mix loss_mask_mix : List ℚ) :
    List ℚ :=
  List.zipWith (fun m b => m + (if b = 0 then 1 else 0)) loss_mask_mix
    x_binary_mix

/-- The mask bookkeeping of `PromixNaive.train_step` between the
geometric augmentation and the forward pass, with the (external) mixup
collaborator passed in as a function on the three mask channels: zero
the loss mask at no-ground-truth pixels, clip the target to `[0, 1]`,
mix, then add the post-mixup background back into the loss mask.
Returns (final loss mask, final target). -/
def train_step_mask_pipeline
    (mixup_fn : List ℚ → List ℚ → List ℚ → List ℚ × List ℚ × List ℚ)
    (x_binary_aug y_aug loss_mask_aug : List ℚ) : List ℚ × List ℚ :=
  let lm := train_step_zero_sentinel y_aug loss_mask_aug
  let y1 := train_step_clip_target y_aug
  let mixed := mixup_fn x_binary_aug y1 lm
  (train_step_add_background mixed.1 mixed.2.2, mixed.2.1)

/-- A mixup collaborator that blends nothing (the `mixup_fn.prob = 0`
branch of `train_step`). -/
def identityMixup (xb y lm : List ℚ) : List ℚ × List ℚ × List ℚ :=
  (xb, y, lm)

/-- A 4-dimensional image as consumed by `cell_preprocess`: the shape
plus the flattened values of channel `0` and of the remaining
channels. -/
structure Image4 where
  dims : List ℕ
  chan0 : List ℚ
  chanRest : List ℚ
deriving DecidableEq, Repr

/-- Embedding of `application.cell_preprocess`: reject arrays that are not
4-dimensional; when `normalize` is set, divide channel `0` by the
marker's normalization factor (falling back to the `0.999` quantile of
channel `0` when the marker is absent from the dictionary) and clip the
whole array to `[0, 1]`. -/
def cell_preprocess (image : Image4) (normalize : Bool) (marker : String)
    (normalization_dict : List (String × ℚ)) : Except String Image4 :=
  if image.dims.length ≠ 4 then
    Except.error "Image data must be 4D"
  else if normalize then
    let norm_factor :=
      match normalization_dict.find? (fun p => p.1 = marker) with
      | some p => p.2
      | none => npQuantile image.chan0 (999 / 1000)
    Except.ok
      { dims := image.dims
        chan0 := image.chan0.map (fun x => clipQ 0 1 (x / norm_factor))
        chanRest := image.chanRest.map (clipQ 0 1) }
  else Except.ok image

/-- The unit of training data handled by the tiling step, with spatial
channels as functions of (row, column) so that windows of any size can
be cut out. -/
structure TileExample where
  height : ℕ
  width : ℕ
  mplex_img : ℕ → ℕ → ℚ
  binary_mask : ℕ → ℕ → ℕ
  instance_mask : ℕ → ℕ → ℤ
  marker_activity_mask : ℕ → ℕ → ℕ
  marker : String
  dataset : String
  platform : String
  folder_name : String
  marker_activity : List (ℤ × ℕ)

/-- Modelled from the spec: the one-axis anchor positions of the tiling
grid of `tile_example` (missing source `segmentation_data_prep.py`):
steps of `stride` as long as a full `tile`-sized window fits, and, when
the extent is not hit exactly, one final window anchored flush with the
trailing edge. -/
def tileAnchors (len tile stride : ℕ) : List ℕ :=
  let reg := (List.range ((len - tile) / stride + 1)).map (fun k => k * stride)
  if (len - tile) % stride = 0 then reg else reg ++ [len - tile]

/-- Whether any pixel of `lab` in the instance mask of `ex` lies in the
`tile`-sized window anchored at `(r, c)`. -/
def labelInWindow (ex : TileExample) (lab : ℤ) (r c tile : ℕ) : Bool :=
  (List.range tile).any (fun i =>
    (List.range tile).any (fun j => ex.instance_mask (r + i) (c + j) = lab))

/-- Modelled from the spec: one output tile of `tile_example` (missing
source `segmentation_data_prep.py`): spatial channels restricted to the
window anchored at `(r, c)`, non-spatial fields copied verbatim, and
the activity table filtered to the labels whose instance-mask pixels
intersect the window. -/
def cropTile (ex : TileExample) (r c tile : ℕ) : TileExample :=
  { height := tile
    width := tile
    mplex_img := fun i j => ex.mplex_img (r + i) (c + j)
    binary_mask := fun i j => ex.binary_mask (r + i) (c + j)
    instance_mask := fun i j => ex.instance_mask (r + i) (c + j)
    marker_activity_mask := fun i j => ex.marker_activity_mask (r + i) (c + j)
    marker := ex.marker
    dataset := ex.dataset
    platform := ex.platform
    folder_name := ex.folder_name
    marker_activity :=
      ex.marker_activity.filter (fun row => labelInWindow ex row.1 r c tile) }

/-- Modelled from the spec: `SegmentationTFRecords.tile_example`
(missing source `segmentation_data_prep.py`): the row-major list of
tiles over the anchor grid, each tagged with its window anchor. -/
def tile_example (ex : TileExample) (tile stride : ℕ) :
    List (ℕ × ℕ × TileExample) :=
  (tileAnchors ex.height tile stride).flatMap (fun r =>
    (tileAnchors ex.width tile stride).map (fun c => (r, c, cropTile ex r c tile)))

/-- A featureless 30×30 example used to evaluate the tiling grid on
concrete numbers. -/
def flatExample : TileExample :=
  { height := 30
    width := 30
    mplex_img := fun _ _ => 0
    binary_mask := fun _ _ => 0
    instance_mask := fun _ _ => 0
    marker_activity_mask := fun _ _ => 0
    marker := "CD4"
    dataset := "d"
    platform := "p"
    folder_name := "f"
    marker_activity := [] }

/-- The unit of training data handled by the record serializer, with
spatial channels flattened to value lists. -/
structure RecordExample where
  mplex_img : List ℚ
  binary_mask : List ℕ
  instance_mask : List ℤ
  marker_activity_mask : List ℕ
  marker : String
  dataset : String
  imaging_platform : String
  folder_name : String
  marker_activity : List (ℤ × ℕ)
deriving DecidableEq, Repr

/-- Quantization of a `[0, 1]` image value to the 16-bit unsigned grid
used by the record writer. -/
def quant16 (x : ℚ) : ℕ := min (Int.floor (x * 65535)).toNat 65535

/-- Reconstruction of an image value from its 16-bit representation. -/
def dequant16 (n : ℕ) : ℚ := (n : ℚ) / 65535

/-- Modelled from the spec: the persisted binary record of one example
(missing source `segmentation_data_prep.py`): the image quantized to 16
bits, the mask channels as lossless integer lists, the string fields
length-prefixed, and the activity table as a row-count-prefixed blob. -/
structure SerializedRecord where
  img16 : List ℕ
  binary_mask_ints : List ℕ
  instance_mask_ints : List ℤ
  marker_activity_mask_ints : List ℕ
  marker_len : ℕ
  marker_bytes : List Char
  dataset_len : ℕ
  dataset_bytes : List Char
  platform_len : ℕ
  platform_bytes : List Char
  folder_len : ℕ
  folder_bytes : List Char
  table_rows : ℕ
  table_blob : List (ℤ × ℕ)

/-- Modelled from the spec: `SegmentationTFRecords.serialize_example`
(missing source `segmentation_data_prep.py`). -/
def serialize_example (e : RecordExample) : SerializedRecord :=
  { img16 := e.mplex_img.map quant16
    binary_mask_ints := e.binary_mask
    instance_mask_ints := e.instance_mask
    marker_activity_mask_ints := e.marker_activity_mask
    marker_len := e.marker.length
    marker_bytes := e.marker.data
    dataset_len := e.dataset.length
    dataset_bytes := e.dataset.data
    platform_len := e.imaging_platform.length
    platform_bytes := e.imaging_platform.data
    folder_len := e.folder_name.length
    folder_bytes := e.folder_name.data
    table_rows := e.marker_activity.length
    table_blob := e.marker_activity }

/-- Modelled from the spec: the record parser (`parse_dict` on the
reading side, missing source `segmentation_data_prep.py`). -/
def deserialize_example (r : SerializedRecord) : RecordExample :=
  { mplex_img := r.img16.map dequant16
    binary_mask := r.binary_mask_ints
    instance_mask := r.instance_mask_ints
    marker_activity_mask := r.marker_activity_mask_ints
    marker := String.mk (r.marker_bytes.take r.marker_len)
    dataset := String.mk (r.dataset_bytes.take r.dataset_len)
    imaging_platform := String.mk (r.platform_bytes.take r.platform_len)
    folder_name := String.mk (r.folder_bytes.take r.folder_len)
    marker_activity := r.table_blob.take r.table_rows }

/-- The result of the normalization calculator: the returned dictionary
together with the file content it persists to the configured path. -/
structure NormalizationOutput where
  dict : List (String × ℚ)
  persisted_file : List (String × ℚ)
deriving DecidableEq, Repr

/-- Modelled from the spec:
`SegmentationTFRecords.calculate_normalization_matrix` (missing source
`segmentation_data_prep.py`): per selected marker, pool one image per
sample folder, take the configured quantile of the pooled pixel values
and return its reciprocal; the full dictionary is persisted
wholesale. -/
def calculate_normalization_matrix (data_folders : List (String → List ℚ))
    (selected_markers : List String) (q : ℚ) : NormalizationOutput :=
  let d := selected_markers.map (fun m =>
    (m, 1 / npQuantile ((data_folders.map (fun folder => folder m)).flatten) q))
  { dict := d, persisted_file := d }

/-- Multiply every pixel of marker `m0`'s image in every folder by `k`,
leaving the other markers untouched. -/
def scaleMarkerImages (k : ℚ) (m0 : String)
    (folders : List (String → List ℚ)) : List (String → List ℚ) :=
  folders.map (fun folder m =>
    if m = m0 then (folder m).map (fun x => k * x) else folder m)

/-- The inputs checked by `load_and_check_input`, after the file loads
have been resolved: the selected markers, the conversion-matrix
columns, the keys of the resolved normalization dictionary, the
discovered data folders with the marker image files each contains,
whether the normalization is computed from the discovered folders, the
normalization quantile, the metadata-table columns, the three
configured column keys, and the sample names in the metadata table. -/
structure PrepConfig where
  selected_markers : List String
  conversion_columns : List String
  normalization_keys : List String
  data_folders : List (String × List String)
  markers_from_disk : Bool
  normalization_quantile : ℚ
  table_columns : List String
  cell_type_key : String
  segment_label_key : String
  sample_key : String
  table_samples : List String
deriving DecidableEq, Repr

/-- The failure modes of the eager validation pass. -/
inductive CheckFail where
  | valueError (msg : String)
  | fileNotFoundError (msg : String)
deriving DecidableEq, Repr

/-- Modelled from the spec:
`SegmentationTFRecords.load_and_check_input` (missing source
`segmentation_data_prep.py`): run the cross-checks eagerly in the
spec's order and raise on the first failing one, with a message that
identifies the failed check (messages as matched by
`segmentation_data_prep_test.py`). -/
def load_and_check_input (c : PrepConfig) : Except CheckFail Unit :=
  if ¬ c.selected_markers.all (fun m => c.conversion_columns.contains m) then
    Except.error (CheckFail.valueError
      "Not all selected markers were found in list conversion matrix columns")
  else if ¬ c.selected_markers.all (fun m => c.normalization_keys.contains m) then
    Except.error (CheckFail.valueError
      "Not all selected markers were found in list normalization dict keys")
  else
    match (if c.markers_from_disk then
        c.selected_markers.find? (fun m =>
          c.data_folders.any (fun folder => ¬ folder.2.contains m))
      else none) with
    | some m =>
        Except.error (CheckFail.fileNotFoundError
          ("Marker " ++ m ++ " not found in data folders"))
    | none =>
        if ¬ (0 ≤ c.normalization_quantile ∧ c.normalization_quantile ≤ 1) then
          Except.error (CheckFail.valueError
            "The normalization_quantile is not in [0, 1]")
        else if ¬ c.table_columns.contains c.cell_type_key then
          Except.error (CheckFail.valueError
            "The cell_type_key is not in the cell_type_table")
        else if ¬ c.table_columns.contains c.segment_label_key then
          Except.error (CheckFail.valueError
            "The segment_label_key is not in the cell_type_table")
        else if ¬ c.table_columns.contains c.sample_key then
          Except.error (CheckFail.valueError
            "The sample_key is not in the cell_type_table")
        else if ¬ c.table_samples.all (fun s =>
            (c.data_folders.map (fun f => f.1)).contains s) then
          Except.error (CheckFail.valueError
            "Not all list sample names were found in list data folder.")
        else Except.ok ()

end CellClassification

namespace CellClassification

theorem lookupThr_setThr_self (s : QuantileState) (m : String)
    (t : Thresholds) : lookupThr (setThr s m t) m = some t := by
  induction s with
  | nil => simp [setThr, lookupThr]
  | cons p rest ih =>
      obtain ⟨k, v⟩ := p
      by_cases h : k = m <;> simp [setThr, lookupThr, h, ih]

theorem lookupThr_setThr_ne (s : QuantileState) (m m' : String)
    (t : Thresholds) (h : m ≠ m') :
    lookupThr (setThr s m t) m' = lookupThr s m' := by
  induction s with
  | nil => simp [setThr, lookupThr, h]
  | cons p rest ih =>
      obtain ⟨k, v⟩ := p
      by_cases hk : k = m
      · subst hk
        simp [setThr, lookupThr, h]
      · simp [setThr, lookupThr, hk, ih]

/-- C1: in `class_wise_loss_selection`, for the positive and the
negative ground-truth subsets independently, a non-empty subset updates
the stored per-marker threshold to
`threshold * (1 - ema) + quantile(losses, q) * ema` and exactly the
subset rows with `loss <= ` the updated threshold are selected (an
empty subset leaves its threshold untouched and selects nothing); a
marker seen for the first time has its thresholds initialised to `1.0`
and the EMA weight forced to `1.0`, so its updated threshold is exactly
the fresh quantile. -/
theorem class_wise_loss_selection_spec (state : QuantileState)
    (ema0 q : ℚ) (positive_df negative_df : List Cell) (mark : String) :
    let ema := if (lookupThr state mark).isSome then ema0 else 1
    let t0 := (lookupThr state mark).getD ⟨1, 1⟩
    let qP := npQuantile (positive_df.map (·.loss)) q
    let qN := npQuantile (negative_df.map (·.loss)) q
    let newP := if positive_df = [] then t0.positive
      else t0.positive * (1 - ema) + qP * ema
    let newN := if negative_df = [] then t0.negative
      else t0.negative * (1 - ema) + qN * ema
    let r := class_wise_loss_selection state ema0 q positive_df negative_df mark
    lookupThr r.1 mark = some ⟨newP, newN⟩ ∧
    r.2 = (if positive_df = [] then []
            else [positive_df.filter (fun c => c.loss ≤ newP)]) ++
          (if negative_df = [] then []
            else [negative_df.filter (fun c => c.loss ≤ newN)]) ∧
    (lookupThr state mark = none → positive_df ≠ [] → newP = qP) ∧
    (lookupThr state mark = none → negative_df ≠ [] → newN = qN) := by
  cases h : lookupThr state mark with
  | none =>
      by_cases hp : positive_df = [] <;> by_cases hn : negative_df = [] <;>
        simp [class_wise_loss_selection, h, hp, hn, lookupThr_setThr_self]
  | some t =>
      by_cases hp : positive_df = [] <;> by_cases hn : negative_df = [] <;>
        simp [class_wise_loss_selection, h, hp, hn, lookupThr_setThr_self]

/-- Witness for C1: a fresh marker with losses `[3/10, 1/2]` on the
positive side and `[2/5]` on the negative side at quantile `1/2` gets
thresholds `(2/5, 2/5)` (the fresh quantiles, ignoring `ema0 = 9/10`)
and selects exactly the rows at or below them. -/
theorem class_wise_loss_selection_spec_witness :
    lookupThr (class_wise_loss_selection [] (9/10) (1/2)
        [⟨1, 1, 3/10⟩, ⟨2, 1, 1/2⟩] [⟨3, 0, 2/5⟩] "CD4").1 "CD4"
      = some ⟨2/5, 2/5⟩ ∧
    (class_wise_loss_selection [] (9/10) (1/2)
        [⟨1, 1, 3/10⟩, ⟨2, 1, 1/2⟩] [⟨3, 0, 2/5⟩] "CD4").2
      = [[⟨1, 1, 3/10⟩], [⟨3, 0, 2/5⟩]] := by
  have h := class_wise_loss_selection_spec [] (9/10) (1/2)
    [⟨1, 1, 3/10⟩, ⟨2, 1, 1/2⟩] [⟨3, 0, 2/5⟩] "CD4"
  obtain ⟨h1, h2, -, -⟩ := h
  have hq1 : npQuantile [3/10, 1/2] (1/2) = 2/5 := by
    norm_num [npQuantile, List.insertionSort, List.orderedInsert]
    simp
  have hq2 : npQuantile [2/5] (1/2) = 2/5 := by
    norm_num [npQuantile, List.insertionSort, List.orderedInsert]
  refine ⟨?_, ?_⟩
  · rw [h1]
    simp [lookupThr]
    norm_num [hq1, hq2]
  · rw [h2]
    simp [lookupThr, List.filter_cons]
    norm_num [hq1, hq2]

/-- C2 counterexample: the claim states that the positive-class
threshold is the loss at ground truth `1` with prediction `pos_thresh`.
The code stores the loss at ground truth `0` with prediction
`neg_thresh` under the key `"positive"`: with the squared-error loss,
`neg_thresh = 1/5` and `pos_thresh = 9/10`, the stored positive
threshold is `1/25`, not `loss(1, 9/10) = 1/100`. -/
theorem matched_high_confidence_thresholds_swapped :
    (matched_high_confidence_selection_thresholds sqLoss (1/5) (9/10)).positive
      ≠ sqLoss 1 (9/10) := by
  norm_num [matched_high_confidence_selection_thresholds, sqLoss]

/-- C2, amended: the thresholds are computed from the configured
`(neg_thresh, pos_thresh)` probabilities, the positive-class threshold
being the loss at ground truth `0` with prediction `neg_thresh` and the
negative-class threshold the loss at ground truth `1` with prediction
`pos_thresh` (the assignment the code makes); the selection then keeps
exactly the ground-truth-positive rows with loss strictly below the
positive-class threshold and the ground-truth-negative rows with loss
strictly below the negative-class threshold. -/
theorem matched_high_confidence_selection_spec (loss_fn : ℚ → ℚ → ℚ)
    (neg_thresh pos_thresh : ℚ) (positive_df negative_df : List Cell) :
    let thr := matched_high_confidence_selection_thresholds loss_fn
      neg_thresh pos_thresh
    thr.positive = loss_fn 0 neg_thresh ∧
    thr.negative = loss_fn 1 pos_thresh ∧
    matched_high_confidence_selection thr positive_df negative_df =
      (if positive_df = [] then []
       else [positive_df.filter (fun c => c.loss < loss_fn 0 neg_thresh)]) ++
      (if negative_df = [] then []
       else [negative_df.filter (fun c => c.loss < loss_fn 1 pos_thresh)]) := by
  refine ⟨rfl, rfl, rfl⟩

theorem mem_uniqueAux : ∀ (l seen : List ℤ) (a : ℤ),
    a ∈ uniqueAux seen l ↔ a ∈ l ∧ a ∉ seen := by
  intro l
  induction l with
  | nil => intro seen a; simp [uniqueAux]
  | cons x xs ih =>
      intro seen a
      by_cases hx : x ∈ seen <;> simp [uniqueAux, hx, ih] <;>
        by_cases hax : a = x <;> simp [hax] <;> tauto

theorem nodup_uniqueAux : ∀ (l seen : List ℤ), (uniqueAux seen l).Nodup := by
  intro l
  induction l with
  | nil => intro seen; simp [uniqueAux]
  | cons x xs ih =>
      intro seen
      by_cases hx : x ∈ seen
      · simpa [uniqueAux, hx] using ih seen
      · simp only [uniqueAux, if_neg hx, List.nodup_cons]
        refine ⟨fun hc => ?_, ih _⟩
        rw [mem_uniqueAux] at hc
        exact hc.2 (List.mem_cons_self _ _)

theorem mem_uniqueFirst (l : List ℤ) (a : ℤ) :
    a ∈ uniqueFirst l ↔ a ∈ l := by
  simp [uniqueFirst, mem_uniqueAux]

theorem nodup_uniqueFirst (l : List ℤ) : (uniqueFirst l).Nodup :=
  nodup_uniqueAux l []

theorem mem_npUniqueInt (l : List ℤ) (a : ℤ) :
    a ∈ npUniqueInt l ↔ a ∈ l := by
  rw [npUniqueInt, mem_uniqueFirst]
  exact (List.perm_insertionSort _ l).mem_iff

theorem getD_zipWith_of_lt (f : ℚ → ℚ → ℚ) :
    ∀ (l1 l2 : List ℚ) (i : ℕ), i < l1.length → i < l2.length →
      (List.zipWith f l1 l2).getD i 0 = f (l1.getD i 0) (l2.getD i 0) := by
  intro l1
  induction l1 with
  | nil => intro l2 i h1 h2; simp at h1
  | cons a l1 ih =>
      intro l2 i h1 h2
      cases l2 with
      | nil => simp at h2
      | cons b l2 =>
          cases i with
          | zero => simp
          | succ n =>
              simpa using ih l2 n (by simpa using h1) (by simpa using h2)

theorem cellMean_perm {p1 p2 : List (ℤ × ℚ)} (h : p1.Perm p2) (u : ℤ) :
    cellMean p1 u = cellMean p2 u := by
  unfold cellMean
  have hf : (p1.filter (fun p => p.1 = u)).Perm
      (p2.filter (fun p => p.1 = u)) := h.filter _
  rw [(hf.map _).sum_eq, hf.length_eq]

/-- C3: `batchwise_loss_selection` threads the threshold state
through the batch elements in order; a batch element with an empty cell
table yields an all-zero mask; a batch element with a non-empty table
yields the mask that is `1` exactly at the pixels whose instance label
is among the labels selected by the class-wise and the high-confidence
heuristics over both classes (deduplication changes nothing, since only
membership is tested), and `0` elsewhere; and the training loop's
multiplication by the binary presence mask zeroes every pixel whose
binary mask is `0`. -/
theorem batchwise_loss_selection_spec (ema q : ℚ) (confThr : Thresholds)
    (st : QuantileState) (df : List Cell) (mask : List ℤ) (mark : String)
    (rest : List (List Cell × List ℤ × String)) :
    let positive_df := df.filter (fun c => c.activity = 1)
    let negative_df := df.filter (fun c => c.activity = 0)
    let selected :=
      ((class_wise_loss_selection st ema q positive_df negative_df mark).2 ++
        matched_high_confidence_selection confThr positive_df negative_df).flatten
    (batchwise_loss_selection ema q confThr st [] = (st, [])) ∧
    (batchwise_loss_selection ema q confThr st ((df, mask, mark) :: rest) =
      ((batchwise_loss_selection ema q confThr
          (batch_element_loss_selection st ema q confThr df mask mark).1 rest).1,
        (batch_element_loss_selection st ema q confThr df mask mark).2 ::
          (batchwise_loss_selection ema q confThr
            (batch_element_loss_selection st ema q confThr df mask mark).1 rest).2)) ∧
    (df = [] → (batch_element_loss_selection st ema q confThr df mask mark).2
        = List.replicate mask.length (0 : ℚ)) ∧
    (df ≠ [] → (batch_element_loss_selection st ema q confThr df mask mark).2
        = mask.map (fun p =>
            if p ∈ selected.map (fun c => c.label) then (1 : ℚ) else 0)) ∧
    (∀ (lm bm : List ℚ) (i : ℕ), i < lm.length → i < bm.length →
      bm.getD i 0 = 0 → (apply_binary_mask lm bm).getD i 0 = 0) := by
  refine ⟨rfl, rfl, ?_, ?_, ?_⟩
  · intro h
    simp [batch_element_loss_selection, h, List.map_const']
  · intro h
    simp only [batch_element_loss_selection, if_neg h]
    refine List.map_congr_left (fun p _ => ?_)
    rw [if_congr (mem_npUniqueInt _ p) rfl rfl]
  · intro lm bm i h1 h2 h0
    rw [apply_binary_mask, getD_zipWith_of_lt _ lm bm i h1 h2, h0, mul_zero]

/-- Witness for C3: a fresh marker, a table with one positive cell
(label 1, loss 1/10) and one negative cell (label 2, loss 9/10),
confidence thresholds `(1/2, 1/2)` and pixels `[0, 1, 2, 5]` give the
mask `[0, 1, 1, 0]`; an empty table gives `[0]`; multiplying by a zero
binary-mask pixel gives `0`. -/
theorem batchwise_loss_selection_spec_witness :
    (batch_element_loss_selection [] (1/2) (1/2) ⟨1/2, 1/2⟩
        [⟨1, 1, 1/10⟩, ⟨2, 0, 9/10⟩] [0, 1, 2, 5] "CD4").2 = [0, 1, 1, 0] ∧
    (batch_element_loss_selection [] (1/2) (1/2) ⟨1/2, 1/2⟩
        [] [7] "CD8").2 = [0] ∧
    (apply_binary_mask [5] [0]).getD 0 0 = 0 := by
  obtain ⟨-, -, -, h4, h5⟩ := batchwise_loss_selection_spec (1/2) (1/2)
    ⟨1/2, 1/2⟩ [] [⟨1, 1, 1/10⟩, ⟨2, 0, 9/10⟩] [0, 1, 2, 5] "CD4" []
  obtain ⟨-, -, h3, -, -⟩ := batchwise_loss_selection_spec (1/2) (1/2)
    ⟨1/2, 1/2⟩ [] [] [7] "CD8" []
  have hq1 : npQuantile [1/10] (1/2) = 1/10 := by
    norm_num [npQuantile, List.insertionSort, List.orderedInsert]
  have hq2 : npQuantile [9/10] (1/2) = 9/10 := by
    norm_num [npQuantile, List.insertionSort, List.orderedInsert]
  refine ⟨?_, ?_, ?_⟩
  · rw [h4 (by simp)]
    simp only [class_wise_loss_selection, matched_high_confidence_selection,
      lookupThr, setThr]
    norm_num [List.filter_cons, hq1, hq2, lookupThr, setThr]
  · rw [h3 rfl]
    rfl
  · exact h5 [5] [0] 0 (by norm_num) (by norm_num) (by norm_num)

/-- C4: `reduce_to_cells` returns the distinct labels of the
instance mask (first-occurrence order, duplicates removed, background
label included) and, per returned label, the arithmetic mean of the
loss over the pixels carrying that label — also for non-contiguous
label sets not starting at `1`; and for a permutation of the (label,
loss) pixels the returned labels are a permutation and the per-label
means are unchanged. -/
theorem reduce_to_cells_spec (pred pred2 : List ℚ) (mask mask2 : List ℤ)
    (hlen : mask.length ≤ pred.length) (hlen2 : mask2.length ≤ pred2.length)
    (hperm : (mask2.zip pred2).Perm (mask.zip pred)) :
    (reduce_to_cells pred mask).1.Nodup ∧
    (∀ u, u ∈ (reduce_to_cells pred mask).1 ↔ u ∈ mask) ∧
    (reduce_to_cells pred mask).2 = (reduce_to_cells pred mask).1.map
      (fun u => cellMean (mask.zip pred) u) ∧
    (reduce_to_cells pred2 mask2).1.Perm (reduce_to_cells pred mask).1 ∧
    (reduce_to_cells pred2 mask2).2 = (reduce_to_cells pred2 mask2).1.map
      (fun u => cellMean (mask.zip pred) u) := by
  have hmask : mask2.Perm mask := by
    have h := hperm.map Prod.fst
    rwa [List.map_fst_zip _ _ hlen2, List.map_fst_zip _ _ hlen] at h
  refine ⟨nodup_uniqueFirst mask, fun u => mem_uniqueFirst mask u, ?_, ?_, ?_⟩
  · refine List.map_congr_left (fun u _ => ?_)
    exact cellMean_perm (List.perm_insertionSort _ _) u
  · refine (List.perm_ext_iff_of_nodup (nodup_uniqueFirst mask2)
      (nodup_uniqueFirst mask)).2 (fun a => ?_)
    rw [mem_uniqueFirst, mem_uniqueFirst]
    exact hmask.mem_iff
  · refine List.map_congr_left (fun u _ => ?_)
    calc cellMean (List.insertionSort (fun a b => a.1 ≤ b.1) (mask2.zip pred2)) u
        = cellMean (mask2.zip pred2) u :=
          cellMean_perm (List.perm_insertionSort _ _) u
      _ = cellMean (mask.zip pred) u := cellMean_perm hperm u

/-- Witness for C4: losses `[1, 2, 3, 4]` on the non-contiguous labels
`[5, 2, 5, 9]`, and the same pixels in reversed order: the returned
label lists are permutations of each other and the reversed input
reproduces the means of the original pixel assignment. -/
theorem reduce_to_cells_spec_witness :
    (reduce_to_cells [4, 3, 2, 1] [9, 5, 2, 5]).1.Perm
      (reduce_to_cells [1, 2, 3, 4] [5, 2, 5, 9]).1 ∧
    (reduce_to_cells [4, 3, 2, 1] [9, 5, 2, 5]).2 =
      (reduce_to_cells [4, 3, 2, 1] [9, 5, 2, 5]).1.map
        (fun u => cellMean (([5, 2, 5, 9] : List ℤ).zip [1, 2, 3, 4]) u) := by
  obtain ⟨-, -, -, h4, h5⟩ := reduce_to_cells_spec [1, 2, 3, 4] [4, 3, 2, 1]
    [5, 2, 5, 9] [9, 5, 2, 5] (by norm_num) (by norm_num) (by decide)
  exact ⟨h4, h5⟩

theorem getD_map_zero (f : ℚ → ℚ) (hf : f 0 = 0) :
    ∀ (l : List ℚ) (i : ℕ), (l.map f).getD i 0 = f (l.getD i 0) := by
  intro l
  induction l with
  | nil => intro i; simp [hf]
  | cons a l ih =>
      intro i
      cases i with
      | zero => simp
      | succ n => simpa using ih n

/-- C9 counterexample: the claim states that clipping the augmented
target to `[0, 1]` turns remaining sentinel-valued (`2`) pixels into
ground-truth-negative (`0`) pixels.  On a one-pixel batch with target
`2` the clipped target that reaches the model is `1`
(ground-truth-positive), not `0`. -/
theorem train_step_sentinel_becomes_positive :
    (train_step_mask_pipeline identityMixup [1] [2] [5]).2 = [1] ∧
    (train_step_mask_pipeline identityMixup [1] [2] [5]).2 ≠ [0] := by
  constructor <;>
    norm_num [train_step_mask_pipeline, identityMixup,
      train_step_zero_sentinel, train_step_clip_target,
      train_step_add_background, clipQ]

/-- C9, amended: in `train_step`, after geometric augmentation the
loss mask is zeroed at every pixel whose augmented target equals the
no-ground-truth sentinel `2`; the augmented target is clipped to
`[0, 1]` before mixup, so remaining sentinel-valued pixels become
ground-truth-positive (value `1`); and after mixup every pixel where
the blended binary mask equals `0` has `1` added to its loss-mask
value, so post-augmentation background pixels contribute to the
loss. -/
theorem train_step_mask_spec
    (mixup_fn : List ℚ → List ℚ → List ℚ → List ℚ × List ℚ × List ℚ)
    (x_binary_aug y_aug loss_mask_aug : List ℚ) :
    (∀ i, y_aug.getD i 0 = 2 →
      (train_step_zero_sentinel y_aug loss_mask_aug).getD i 0 = 0) ∧
    (∀ i, 0 ≤ (train_step_clip_target y_aug).getD i 0 ∧
      (train_step_clip_target y_aug).getD i 0 ≤ 1) ∧
    (∀ i, y_aug.getD i 0 = 2 →
      (train_step_clip_target y_aug).getD i 0 = 1) ∧
    (train_step_mask_pipeline mixup_fn x_binary_aug y_aug loss_mask_aug =
      (train_step_add_background
        (mixup_fn x_binary_aug (train_step_clip_target y_aug)
          (train_step_zero_sentinel y_aug loss_mask_aug)).1
        (mixup_fn x_binary_aug (train_step_clip_target y_aug)
          (train_step_zero_sentinel y_aug loss_mask_aug)).2.2,
        (mixup_fn x_binary_aug (train_step_clip_target y_aug)
          (train_step_zero_sentinel y_aug loss_mask_aug)).2.1)) ∧
    (∀ (bm lmm : List ℚ) (i : ℕ), i < bm.length → i < lmm.length →
      (train_step_add_background bm lmm).getD i 0 =
        lmm.getD i 0 + (if bm.getD i 0 = 0 then 1 else 0)) := by
  have hclip0 : clipQ 0 1 0 = 0 := by norm_num [clipQ]
  refine ⟨?_, ?_, ?_, rfl, ?_⟩
  · intro i hy
    rcases lt_or_le i loss_mask_aug.length with hlm | hlm
    · have hyl : i < y_aug.length := by
        by_contra hc
        push_neg at hc
        rw [List.getD_eq_default _ _ hc] at hy
        norm_num at hy
      rw [train_step_zero_sentinel,
        getD_zipWith_of_lt _ _ _ i hyl hlm, hy, if_pos rfl]
    · apply List.getD_eq_default
      rw [train_step_zero_sentinel, List.length_zipWith]
      exact le_trans (min_le_right _ _) hlm
  · intro i
    rw [train_step_clip_target, getD_map_zero _ hclip0]
    exact ⟨le_max_left _ _, max_le zero_le_one (min_le_right _ _)⟩
  · intro i hy
    rw [train_step_clip_target, getD_map_zero _ hclip0, hy]
    norm_num [clipQ]
  · intro bm lmm i h1 h2
    rw [train_step_add_background, getD_zipWith_of_lt _ _ _ i h2 h1]

/-- Witness for C9 at the two-pixel batch with binary mask `[0, 1]`,
target `[2, 1]` and loss mask `[3, 4]` under identity mixup: the
sentinel pixel's mask is zeroed, its clipped target is `1`, and the
background pixel gets `1` added to its final loss-mask value. -/
theorem train_step_mask_spec_witness :
    (train_step_zero_sentinel [2, 1] [3, 4]).getD 0 0 = 0 ∧
    (train_step_clip_target [2, 1]).getD 0 0 = 1 ∧
    (train_step_mask_pipeline identityMixup [0, 1] [2, 1] [3, 4]).1.getD 0 0
      = 0 + 1 := by
  obtain ⟨hA, -, hC, hD, hE⟩ :=
    train_step_mask_spec identityMixup [0, 1] [2, 1] [3, 4]
  refine ⟨hA 0 (by norm_num), hC 0 (by norm_num), ?_⟩
  rw [hD]
  have h := hE [0, 1]
    (train_step_zero_sentinel [2, 1] [3, 4]) 0 (by norm_num)
    (by norm_num [train_step_zero_sentinel])
  simp only [identityMixup] at h ⊢
  rw [h, hA 0 (by norm_num)]
  norm_num

/-- C10: `cell_preprocess` rejects exactly the arrays that are not
4-dimensional; with `normalize = True` it divides channel `0` by the
marker's factor from the normalization dictionary (falling back to the
`0.999` quantile of channel `0` when the marker is absent) and clips,
so every value of the returned array lies in `[0, 1]`; with
`normalize = False` it returns the array unchanged. -/
theorem cell_preprocess_spec (image : Image4) (marker : String)
    (ndict : List (String × ℚ)) (normalize : Bool) :
    (image.dims.length ≠ 4 →
      cell_preprocess image normalize marker ndict =
        Except.error "Image data must be 4D") ∧
    (∀ e, cell_preprocess image normalize marker ndict = Except.error e →
      image.dims.length ≠ 4) ∧
    (image.dims.length = 4 →
      ∀ pr, ndict.find? (fun p => p.1 = marker) = some pr →
        cell_preprocess image true marker ndict = Except.ok
          ⟨image.dims, image.chan0.map (fun x => clipQ 0 1 (x / pr.2)),
            image.chanRest.map (clipQ 0 1)⟩) ∧
    (image.dims.length = 4 → ndict.find? (fun p => p.1 = marker) = none →
      cell_preprocess image true marker ndict = Except.ok
        ⟨image.dims,
          image.chan0.map (fun x =>
            clipQ 0 1 (x / npQuantile image.chan0 (999/1000))),
          image.chanRest.map (clipQ 0 1)⟩) ∧
    (image.dims.length = 4 → ∀ out,
      cell_preprocess image true marker ndict = Except.ok out →
      (∀ x ∈ out.chan0, 0 ≤ x ∧ x ≤ 1) ∧
      (∀ x ∈ out.chanRest, 0 ≤ x ∧ x ≤ 1)) ∧
    (image.dims.length = 4 → normalize = false →
      cell_preprocess image normalize marker ndict = Except.ok image) := by
  have hb : ∀ y : ℚ, 0 ≤ clipQ 0 1 y ∧ clipQ 0 1 y ≤ 1 := fun y =>
    ⟨le_max_left _ _, max_le zero_le_one (min_le_right _ _)⟩
  refine ⟨?_, ?_, ?_, ?_, ?_, ?_⟩
  · intro h
    simp [cell_preprocess, h]
  · intro e he hc
    rcases hfind : ndict.find? (fun p => p.1 = marker) with - | pr <;>
      cases normalize <;> simp [cell_preprocess, hc, hfind] at he
  · intro h4 pr hfind
    simp [cell_preprocess, h4, hfind]
  · intro h4 hfind
    simp [cell_preprocess, h4, hfind]
  · intro h4 out hout
    rcases hfind : ndict.find? (fun p => p.1 = marker) with - | pr <;>
      simp [cell_preprocess, h4, hfind] at hout <;>
      subst hout <;>
      refine ⟨fun x hx => ?_, fun x hx => ?_⟩ <;>
      obtain ⟨y, -, rfl⟩ := List.mem_map.1 hx <;>
      exact hb _
  · intro h4 hnorm
    simp [cell_preprocess, h4, hnorm]

/-- Witness for C10: a well-shaped image with channel-0 values
`[2, 1/2]` and factor `2` for marker CD4 is normalized to `[1, 1/4]`
with the extra channel clipped to `[1]`, and a 3-dimensional shape is
rejected. -/
theorem cell_preprocess_spec_witness :
    cell_preprocess ⟨[1, 1, 1, 1], [2, 1/2], [3]⟩ true "CD4" [("CD4", 2)]
      = Except.ok ⟨[1, 1, 1, 1], [1, 1/4], [1]⟩ ∧
    cell_preprocess ⟨[1, 1, 1], [2, 1/2], [3]⟩ true "CD4" [("CD4", 2)]
      = Except.error "Image data must be 4D" := by
  obtain ⟨-, -, h3, -, -, -⟩ :=
    cell_preprocess_spec ⟨[1, 1, 1, 1], [2, 1/2], [3]⟩ "CD4" [("CD4", 2)] true
  obtain ⟨h1, -, -, -, -, -⟩ :=
    cell_preprocess_spec ⟨[1, 1, 1], [2, 1/2], [3]⟩ "CD4" [("CD4", 2)] true
  refine ⟨?_, h1 (by norm_num)⟩
  rw [h3 (by norm_num) ("CD4", 2) (by simp)]
  norm_num [clipQ]

theorem orderedInsert_map_mul {k : ℚ} (hk : 0 < k) (a : ℚ) :
    ∀ l : List ℚ,
      List.orderedInsert (· ≤ ·) (k * a) (l.map (fun x => k * x))
        = (List.orderedInsert (· ≤ ·) a l).map (fun x => k * x) := by
  intro l
  induction l with
  | nil => simp [List.orderedInsert]
  | cons b l ih =>
      by_cases hab : a ≤ b
      · rw [List.map_cons, List.orderedInsert,
          if_pos ((mul_le_mul_left hk).2 hab), List.orderedInsert, if_pos hab,
          List.map_cons, List.map_cons]
      · rw [List.map_cons, List.orderedInsert,
          if_neg (fun hc => hab ((mul_le_mul_left hk).1 hc)),
          List.orderedInsert, if_neg hab, List.map_cons, ih]

theorem insertionSort_map_mul {k : ℚ} (hk : 0 < k) :
    ∀ l : List ℚ,
      List.insertionSort (· ≤ ·) (l.map (fun x => k * x))
        = (List.insertionSort (· ≤ ·) l).map (fun x => k * x) := by
  intro l
  induction l with
  | nil => rfl
  | cons a l ih =>
      rw [List.map_cons]
      show List.orderedInsert _ (k * a) (List.insertionSort _ (l.map _))
        = _
      rw [ih, orderedInsert_map_mul hk]
      rfl

theorem npQuantile_smul {k : ℚ} (hk : 0 < k) (xs : List ℚ) (q : ℚ) :
    npQuantile (xs.map (fun x => k * x)) q = k * npQuantile xs q := by
  by_cases hxs : xs = []
  · subst hxs
    simp [npQuantile]
  · have hne : xs.map (fun x => k * x) ≠ [] := by
      simpa using hxs
    rw [npQuantile, npQuantile, if_neg hne, if_neg hxs]
    simp only [insertionSort_map_mul hk, List.length_map,
      getD_map_zero _ (mul_zero k)]
    ring

/-- C7: `calculate_normalization_matrix` returns, per selected
marker, `1 / (pooled pixel value at the configured quantile)`, persists
exactly that dictionary, and is inversely proportional to the input
scale: multiplying one marker's images by `k > 0` multiplies that
marker's factor by `1 / k` and leaves the other markers' factors
unchanged. -/
theorem calculate_normalization_matrix_spec
    (data_folders : List (String → List ℚ)) (selected_markers : List String)
    (q : ℚ) {k : ℚ} (hk : 0 < k) (m0 : String) :
    (calculate_normalization_matrix data_folders selected_markers q).persisted_file
      = (calculate_normalization_matrix data_folders selected_markers q).dict ∧
    (calculate_normalization_matrix data_folders selected_markers q).dict
      = selected_markers.map (fun m =>
        (m, 1 / npQuantile ((data_folders.map (fun folder => folder m)).flatten) q)) ∧
    (calculate_normalization_matrix
        (scaleMarkerImages k m0 data_folders) selected_markers q).dict
      = selected_markers.map (fun m =>
      (m, if m = m0 then
          (1 / k) * (1 / npQuantile
            ((data_folders.map (fun folder => folder m)).flatten) q)
        else
          1 / npQuantile
            ((data_folders.map (fun folder => folder m)).flatten) q)) := by
  refine ⟨rfl, rfl, ?_⟩
  refine List.map_congr_left (fun m _ => ?_)
  by_cases hm : m = m0
  · subst hm
    have hpool : (scaleMarkerImages k m data_folders).map (fun folder => folder m)
        = (data_folders.map (fun folder => folder m)).map (fun l =>
            l.map (fun x => k * x)) := by
      simp [scaleMarkerImages]
    simp only [calculate_normalization_matrix, hpool, if_pos rfl]
    rw [show ((data_folders.map (fun folder => folder m)).map (fun l =>
        l.map (fun x => k * x))).flatten
      = ((data_folders.map (fun folder => folder m)).flatten).map
          (fun x => k * x) from (List.map_flatten _ _).symm]
    rw [npQuantile_smul hk]
    simp [one_div, mul_inv, mul_comm]
  · have hpool : (scaleMarkerImages k m0 data_folders).map (fun folder => folder m)
        = data_folders.map (fun folder => folder m) := by
      simp [scaleMarkerImages, hm]
    simp only [calculate_normalization_matrix, hpool, if_neg hm]

/-- Witness for C7 on one folder mapping marker CD4 to the image
`[2, 4]` at quantile `1/2` and scale `k = 2`: the factor is
`1/3 = 1 / median([2, 4])`, and scaling the image by `2` halves it to
`1/6`. -/
theorem calculate_normalization_matrix_spec_witness :
    (calculate_normalization_matrix
        [fun m => if m = "CD4" then [2, 4] else [1]] ["CD4"] (1/2)).dict
      = [("CD4", 1/3)] ∧
    (calculate_normalization_matrix
        (scaleMarkerImages 2 "CD4" [fun m => if m = "CD4" then [2, 4] else [1]])
        ["CD4"] (1/2)).dict
      = [("CD4", 1/6)] := by
  obtain ⟨-, h2, h3⟩ := calculate_normalization_matrix_spec
    [fun m => if m = "CD4" then [2, 4] else [1]] ["CD4"] (1/2)
    (show (0:ℚ) < 2 by norm_num) "CD4"
  have hq : npQuantile [2, 4] (1/2) = 3 := by
    norm_num [npQuantile, List.insertionSort, List.orderedInsert]
    simp
  refine ⟨?_, ?_⟩
  · rw [h2]
    norm_num [hq]
  · rw [h3]
    norm_num [hq]

/-- C8: `load_and_check_input` fails fast, raising on the first
failing check with an error identifying it: a marker missing from the
conversion-matrix columns, a marker missing from the resolved
normalization dictionary, a marker image file missing from a discovered
data folder (naming the marker, only when markers are resolved from
disk), a normalization quantile outside `[0, 1]`, a missing cell-type /
segment-label / sample column in the metadata table (naming the key),
and a metadata sample name that is not a discovered data folder; when
every check passes it succeeds. -/
theorem load_and_check_input_spec (c : PrepConfig) :
    let okConv := c.selected_markers.all (fun m => c.conversion_columns.contains m)
    let okNorm := c.selected_markers.all (fun m => c.normalization_keys.contains m)
    let missing := if c.markers_from_disk then
        c.selected_markers.find? (fun m =>
          c.data_folders.any (fun folder => ¬ folder.2.contains m))
      else none
    let okQuant := 0 ≤ c.normalization_quantile ∧ c.normalization_quantile ≤ 1
    let okSamples := c.table_samples.all (fun s =>
      (c.data_folders.map (fun f => f.1)).contains s)
    (okConv = false → load_and_check_input c = Except.error (CheckFail.valueError
      "Not all selected markers were found in list conversion matrix columns")) ∧
    (okConv = true → okNorm = false →
      load_and_check_input c = Except.error (CheckFail.valueError
        "Not all selected markers were found in list normalization dict keys")) ∧
    (okConv = true → okNorm = true → ∀ m, missing = some m →
      load_and_check_input c = Except.error (CheckFail.fileNotFoundError
        ("Marker " ++ m ++ " not found in data folders"))) ∧
    (okConv = true → okNorm = true → missing = none → ¬ okQuant →
      load_and_check_input c = Except.error (CheckFail.valueError
        "The normalization_quantile is not in [0, 1]")) ∧
    (okConv = true → okNorm = true → missing = none → okQuant →
      c.table_columns.contains c.cell_type_key = false →
      load_and_check_input c = Except.error (CheckFail.valueError
        "The cell_type_key is not in the cell_type_table")) ∧
    (okConv = true → okNorm = true → missing = none → okQuant →
      c.table_columns.contains c.cell_type_key = true →
      c.table_columns.contains c.segment_label_key = false →
      load_and_check_input c = Except.error (CheckFail.valueError
        "The segment_label_key is not in the cell_type_table")) ∧
    (okConv = true → okNorm = true → missing = none → okQuant →
      c.table_columns.contains c.cell_type_key = true →
      c.table_columns.contains c.segment_label_key = true →
      c.table_columns.contains c.sample_key = false →
      load_and_check_input c = Except.error (CheckFail.valueError
        "The sample_key is not in the cell_type_table")) ∧
    (okConv = true → okNorm = true → missing = none → okQuant →
      c.table_columns.contains c.cell_type_key = true →
      c.table_columns.contains c.segment_label_key = true →
      c.table_columns.contains c.sample_key = true →
      okSamples = false →
      load_and_check_input c = Except.error (CheckFail.valueError
        "Not all list sample names were found in list data folder.")) ∧
    (okConv = true → okNorm = true → missing = none → okQuant →
      c.table_columns.contains c.cell_type_key = true →
      c.table_columns.contains c.segment_label_key = true →
      c.table_columns.contains c.sample_key = true →
      okSamples = true →
      load_and_check_input c = Except.ok ()) := by
  refine ⟨?_, ?_, ?_, ?_, ?_, ?_, ?_, ?_, ?_⟩
  · intro h1
    simp only [load_and_check_input]
    rw [h1]
    simp
  · intro h1 h2
    simp only [load_and_check_input]
    rw [h1, h2]
    simp
  · intro h1 h2 m hm
    simp only [load_and_check_input]
    rw [h1, h2, hm]
    simp
  · intro h1 h2 hm hq
    simp only [load_and_check_input]
    rw [h1, h2, hm]
    simp [hq]
  · intro h1 h2 hm hq h5
    simp only [load_and_check_input]
    rw [h1, h2, hm, h5]
    simp [hq]
  · intro h1 h2 hm hq h5 h6
    simp only [load_and_check_input]
    rw [h1, h2, hm, h5, h6]
    simp [hq]
  · intro h1 h2 hm hq h5 h6 h7
    simp only [load_and_check_input]
    rw [h1, h2, hm, h5, h6, h7]
    simp [hq]
  · intro h1 h2 hm hq h5 h6 h7 h8
    simp only [load_and_check_input]
    rw [h1, h2, hm, h5, h6, h7, h8]
    simp [hq]
  · intro h1 h2 hm hq h5 h6 h7 h8
    simp only [load_and_check_input]
    rw [h1, h2, hm, h5, h6, h7, h8]
    simp [hq]

/-- Witness for C8: nine concrete configurations, one per outcome of
the validation pass, each built from a well-formed base configuration
with exactly the checked field broken. -/
theorem load_and_check_input_spec_witness :
    load_and_check_input ⟨["XYZ"], ["CD4"], ["CD4"], [("fov_1", ["CD4"])],
        true, 99/100, ["SampleID", "labels", "cluster_labels"],
        "cluster_labels", "labels", "SampleID", ["fov_1"]⟩
      = Except.error (CheckFail.valueError
        "Not all selected markers were found in list conversion matrix columns") ∧
    load_and_check_input ⟨["XYZ"], ["XYZ"], ["CD4"], [("fov_1", ["CD4"])],
        true, 99/100, ["SampleID", "labels", "cluster_labels"],
        "cluster_labels", "labels", "SampleID", ["fov_1"]⟩
      = Except.error (CheckFail.valueError
        "Not all selected markers were found in list normalization dict keys") ∧
    load_and_check_input ⟨["ZYX"], ["ZYX"], ["ZYX"], [("fov_1", ["CD4"])],
        true, 99/100, ["SampleID", "labels", "cluster_labels"],
        "cluster_labels", "labels", "SampleID", ["fov_1"]⟩
      = Except.error (CheckFail.fileNotFoundError
        "Marker ZYX not found in data folders") ∧
    load_and_check_input ⟨["CD4"], ["CD4"], ["CD4"], [("fov_1", ["CD4"])],
        true, 11/10, ["SampleID", "labels", "cluster_labels"],
        "cluster_labels", "labels", "SampleID", ["fov_1"]⟩
      = Except.error (CheckFail.valueError
        "The normalization_quantile is not in [0, 1]") ∧
    load_and_check_input ⟨["CD4"], ["CD4"], ["CD4"], [("fov_1", ["CD4"])],
        true, 99/100, ["SampleID", "labels", "cluster_labels"],
        "wrong_key", "labels", "SampleID", ["fov_1"]⟩
      = Except.error (CheckFail.valueError
        "The cell_type_key is not in the cell_type_table") ∧
    load_and_check_input ⟨["CD4"], ["CD4"], ["CD4"], [("fov_1", ["CD4"])],
        true, 99/100, ["SampleID", "labels", "cluster_labels"],
        "cluster_labels", "wrong_key", "SampleID", ["fov_1"]⟩
      = Except.error (CheckFail.valueError
        "The segment_label_key is not in the cell_type_table") ∧
    load_and_check_input ⟨["CD4"], ["CD4"], ["CD4"], [("fov_1", ["CD4"])],
        true, 99/100, ["SampleID", "labels", "cluster_labels"],
        "cluster_labels", "labels", "wrong_key", ["fov_1"]⟩
      = Except.error (CheckFail.valueError
        "The sample_key is not in the cell_type_table") ∧
    load_and_check_input ⟨["CD4"], ["CD4"], ["CD4"], [("fov_1", ["CD4"])],
        true, 99/100, ["SampleID", "labels", "cluster_labels"],
        "cluster_labels", "labels", "SampleID", ["wrong_sample"]⟩
      = Except.error (CheckFail.valueError
        "Not all list sample names were found in list data folder.") ∧
    load_and_check_input ⟨["CD4"], ["CD4"], ["CD4"], [("fov_1", ["CD4"])],
        true, 99/100, ["SampleID", "labels", "cluster_labels"],
        "cluster_labels", "labels", "SampleID", ["fov_1"]⟩
      = Except.ok () := by
  refine ⟨?_, ?_, ?_, ?_, ?_, ?_, ?_, ?_, ?_⟩
  · exact (load_and_check_input_spec _).1 (by decide)
  · exact (load_and_check_input_spec _).2.1 (by decide) (by decide)
  · exact (load_and_check_input_spec _).2.2.1 (by decide) (by decide) "ZYX"
      (by decide)
  · exact (load_and_check_input_spec _).2.2.2.1 (by decide) (by decide)
      (by decide) (by norm_num)
  · exact (load_and_check_input_spec _).2.2.2.2.1 (by decide) (by decide)
      (by decide) (by norm_num) (by decide)
  · exact (load_and_check_input_spec _).2.2.2.2.2.1 (by decide) (by decide)
      (by decide) (by norm_num) (by decide) (by decide)
  · exact (load_and_check_input_spec _).2.2.2.2.2.2.1 (by decide) (by decide)
      (by decide) (by norm_num) (by decide) (by decide) (by decide)
  · exact (load_and_check_input_spec _).2.2.2.2.2.2.2.1 (by decide) (by decide)
      (by decide) (by norm_num) (by decide) (by decide) (by decide) (by decide)
  · exact (load_and_check_input_spec _).2.2.2.2.2.2.2.2 (by decide) (by decide)
      (by decide) (by norm_num) (by decide) (by decide) (by decide) (by decide)

theorem dequant16_quant16_close {x : ℚ} (h0 : 0 ≤ x) (h1 : x ≤ 1) :
    |dequant16 (quant16 x) - x| ≤ 1/10000 := by
  have h65535 : (0:ℚ) < 65535 := by norm_num
  have hy0 : (0:ℚ) ≤ x * 65535 := by positivity
  have hy1 : x * 65535 ≤ 65535 := by nlinarith
  have hf0 : 0 ≤ Int.floor (x * 65535) := Int.floor_nonneg.2 hy0
  have hfle : Int.floor (x * 65535) ≤ 65535 := by
    have h : Int.floor (x * 65535) ≤ Int.floor (65535 : ℚ) :=
      Int.floor_le_floor hy1
    simpa using h
  have hmin : min (Int.floor (x * 65535)).toNat 65535
      = (Int.floor (x * 65535)).toNat := by
    refine min_eq_left ?_
    exact Int.toNat_le.2 hfle
  have hcast : (((Int.floor (x * 65535)).toNat : ℕ) : ℚ)
      = ((Int.floor (x * 65535) : ℤ) : ℚ) := by
    exact_mod_cast congrArg (fun z : ℤ => (z : ℚ))
      (Int.toNat_of_nonneg hf0)
  rw [dequant16, quant16, hmin, hcast]
  have hle : ((Int.floor (x * 65535) : ℤ) : ℚ) ≤ x * 65535 := Int.floor_le _
  have hgt : x * 65535 - 1 < ((Int.floor (x * 65535) : ℤ) : ℚ) :=
    Int.sub_one_lt_floor _
  have hub : ((Int.floor (x * 65535) : ℤ) : ℚ) / 65535 ≤ x := by
    rw [div_le_iff₀ h65535]
    linarith
  have hlb : x - 1/65535 < ((Int.floor (x * 65535) : ℤ) : ℚ) / 65535 := by
    rw [lt_div_iff₀ h65535]
    ring_nf
    linarith
  rw [abs_le]
  constructor <;> nlinarith

/-- C6: deserializing a serialized example reproduces the binary
mask, the instance mask and the marker-activity mask exactly, the
string fields and the activity table exactly (an empty table round
trips without error), and every pixel of the `[0, 1]` marker image to
within absolute tolerance `1/10000` through its 16-bit quantized
storage. -/
theorem serialize_example_roundtrip (e : RecordExample)
    (himg : ∀ x ∈ e.mplex_img, 0 ≤ x ∧ x ≤ 1) :
    let d := deserialize_example (serialize_example e)
    d.binary_mask = e.binary_mask ∧
    d.instance_mask = e.instance_mask ∧
    d.marker_activity_mask = e.marker_activity_mask ∧
    d.marker = e.marker ∧
    d.dataset = e.dataset ∧
    d.imaging_platform = e.imaging_platform ∧
    d.folder_name = e.folder_name ∧
    d.marker_activity = e.marker_activity ∧
    d.mplex_img.length = e.mplex_img.length ∧
    ∀ i, |d.mplex_img.getD i 0 - e.mplex_img.getD i 0| ≤ 1/10000 := by
  have hs : ∀ s : String, String.mk (s.data.take s.length) = s := by
    intro s
    rcases s with ⟨l⟩
    show String.mk (l.take l.length) = String.mk l
    rw [List.take_length]
  have hq0 : dequant16 (quant16 0) = 0 := by
    norm_num [quant16, dequant16]
  refine ⟨rfl, rfl, rfl, hs _, hs _, hs _, hs _, ?_, ?_, ?_⟩
  · show e.marker_activity.take e.marker_activity.length = e.marker_activity
    rw [List.take_length]
  · show ((e.mplex_img.map quant16).map dequant16).length = _
    rw [List.length_map, List.length_map]
  · intro i
    show |((e.mplex_img.map quant16).map dequant16).getD i 0 - _| ≤ _
    rw [List.map_map, getD_map_zero _ (by exact hq0)]
    rcases lt_or_le i e.mplex_img.length with hi | hi
    · have hmem : e.mplex_img.getD i 0 ∈ e.mplex_img := by
        rw [List.getD_eq_getElem _ _ hi]
        exact List.getElem_mem hi
      obtain ⟨hx0, hx1⟩ := himg _ hmem
      exact dequant16_quant16_close hx0 hx1
    · rw [List.getD_eq_default _ _ hi]
      norm_num [Function.comp, hq0]

/-- Witness for C6: a one-pixel example with image value `1/2`, masks
`[1]`, `[3]`, `[2]`, four string fields and an empty activity table
round trips: all integer and string fields exactly, the image pixel to
within `1/10000`. -/
theorem serialize_example_roundtrip_witness :
    (deserialize_example (serialize_example
        ⟨[1/2], [1], [3], [2], "CD4", "ds", "mibi", "fov_1", []⟩)).marker
      = "CD4" ∧
    (deserialize_example (serialize_example
        ⟨[1/2], [1], [3], [2], "CD4", "ds", "mibi", "fov_1", []⟩)).marker_activity
      = [] ∧
    (deserialize_example (serialize_example
        ⟨[1/2], [1], [3], [2], "CD4", "ds", "mibi", "fov_1", []⟩)).binary_mask
      = [1] ∧
    |(deserialize_example (serialize_example
        ⟨[1/2], [1], [3], [2], "CD4", "ds", "mibi", "fov_1", []⟩)).mplex_img.getD 0 0
      - 1/2| ≤ 1/10000 := by
  obtain ⟨hb, -, -, hm, -, -, -, ht, -, himg⟩ :=
    serialize_example_roundtrip
      ⟨[1/2], [1], [3], [2], "CD4", "ds", "mibi", "fov_1", []⟩
      (by intro x hx; rw [List.mem_singleton] at hx; subst hx; norm_num)
  exact ⟨hm, ht, hb, himg 0⟩

theorem mem_tileAnchors_trailing (len T S : ℕ) :
    (len - T) ∈ tileAnchors len T S := by
  rw [tileAnchors]
  by_cases hmod : (len - T) % S = 0
  · rw [if_pos hmod]
    refine List.mem_map.2 ⟨(len - T) / S, ?_, ?_⟩
    · exact List.mem_range.2 (Nat.lt_succ_self _)
    · exact Nat.div_mul_cancel (Nat.dvd_of_mod_eq_zero hmod)
  · rw [if_neg hmod]
    exact List.mem_append_right _ (List.mem_singleton.2 rfl)

theorem tileAnchors_add_le (len T S : ℕ) (hT : T ≤ len) :
    ∀ a ∈ tileAnchors len T S, a + T ≤ len := by
  intro a ha
  rw [tileAnchors] at ha
  have hbase : ∀ b ∈ (List.range ((len - T) / S + 1)).map (fun k => k * S),
      b + T ≤ len := by
    intro b hb
    obtain ⟨k, hk, rfl⟩ := List.mem_map.1 hb
    have hk2 : k ≤ (len - T) / S := Nat.lt_succ_iff.1 (List.mem_range.1 hk)
    have hk3 : k * S ≤ (len - T) / S * S := Nat.mul_le_mul_right _ hk2
    have hk4 : k * S ≤ len - T := le_trans hk3 (Nat.div_mul_le_self _ _)
    omega
  by_cases hmod : (len - T) % S = 0
  · rw [if_pos hmod] at ha
    exact hbase a ha
  · rw [if_neg hmod] at ha
    rcases List.mem_append.1 ha with h | h
    · exact hbase a h
    · rw [List.mem_singleton] at h
      subst h
      omega

theorem tileAnchors_cover (len T S : ℕ) (hS : 0 < S) (hST : S ≤ T)
    (hT : T ≤ len) : ∀ i < len, ∃ a ∈ tileAnchors len T S,
      a ≤ i ∧ i < a + T := by
  intro i hi
  by_cases hend : len - T ≤ i
  · exact ⟨len - T, mem_tileAnchors_trailing len T S, hend, by omega⟩
  · push_neg at hend
    refine ⟨i / S * S, ?_, Nat.div_mul_le_self _ _, ?_⟩
    · rw [tileAnchors]
      have hk : i / S < (len - T) / S + 1 := by
        have h : i / S ≤ (len - T) / S := Nat.div_le_div_right (le_of_lt hend)
        omega
      have hmem : i / S * S ∈ (List.range ((len - T) / S + 1)).map
          (fun k => k * S) :=
        List.mem_map.2 ⟨i / S, List.mem_range.2 hk, rfl⟩
      by_cases hmod : (len - T) % S = 0
      · rw [if_pos hmod]
        exact hmem
      · rw [if_neg hmod]
        exact List.mem_append_left _ hmem
    · have h2 : i % S < S := Nat.mod_lt _ hS
      have h1 : S * (i / S) + i % S = i := Nat.div_add_mod i S
      have h3 : S * (i / S) = i / S * S := Nat.mul_comm _ _
      linarith

theorem tileAnchors_sorted (len T S : ℕ) (hS : 0 < S) :
    List.Pairwise (· < ·) (tileAnchors len T S) := by
  have hreg : List.Pairwise (· < ·)
      ((List.range ((len - T) / S + 1)).map (fun k => k * S)) := by
    rw [List.pairwise_map]
    refine List.Pairwise.imp ?_ (List.pairwise_lt_range _)
    intro a b hab
    exact (Nat.mul_lt_mul_right hS).2 hab
  rw [tileAnchors]
  by_cases hmod : (len - T) % S = 0
  · rw [if_pos hmod]
    exact hreg
  · rw [if_neg hmod]
    rw [List.pairwise_append]
    refine ⟨hreg, List.pairwise_singleton _ _, ?_⟩
    intro x hx y hy
    rw [List.mem_singleton] at hy
    subst hy
    obtain ⟨k, hk, rfl⟩ := List.mem_map.1 hx
    have hk2 : k ≤ (len - T) / S := Nat.lt_succ_iff.1 (List.mem_range.1 hk)
    have hk3 : k * S ≤ (len - T) / S * S := Nat.mul_le_mul_right _ hk2
    have h4 : (len - T) / S * S ≤ len - T := Nat.div_mul_le_self _ _
    rcases lt_or_eq_of_le h4 with h | h
    · omega
    · exfalso
      apply hmod
      rw [← h]
      exact Nat.mul_mod_left _ _

theorem tileAnchors_getLast (len T S : ℕ) :
    (tileAnchors len T S).getLast? = some (len - T) := by
  rw [tileAnchors]
  by_cases hmod : (len - T) % S = 0
  · rw [if_pos hmod, List.range_succ, List.map_append, List.map_cons,
      List.map_nil, List.getLast?_concat]
    rw [Nat.div_mul_cancel (Nat.dvd_of_mod_eq_zero hmod)]
  · rw [if_neg hmod, List.getLast?_concat]

theorem getLast?_flatMap_map (f : ℕ → ℕ → ℕ × ℕ × TileExample) :
    ∀ (l1 l2 : List ℕ), l2 ≠ [] →
      (l1.flatMap (fun r => l2.map (f r))).getLast?
        = l1.getLast?.bind (fun r => (l2.map (f r)).getLast?) := by
  intro l1
  induction l1 with
  | nil => intro l2 h2; simp
  | cons a l1 ih =>
      intro l2 h2
      by_cases h1 : l1 = []
      · subst h1
        simp
      · rw [List.flatMap_cons,
          List.getLast?_append_of_ne_nil _ ?hne, ih l2 h2]
        · congr 1
          cases l1 with
          | nil => exact absurd rfl h1
          | cons b l1 => rw [List.getLast?_cons_cons]
        · case hne =>
            intro hc
            have hlen := congrArg List.length hc
            cases l1 with
            | nil => exact absurd rfl h1
            | cons b l1 =>
                rw [List.flatMap_cons] at hlen
                simp only [List.length_append, List.length_map,
                  List.length_nil] at hlen
                have := List.length_pos.2 h2
                omega

/-- C5 counterexample: the claim asserts full coverage for every
tile size and stride.  With tile size `2` and stride `10` on the 30×30
example, no returned tile window contains the in-extent pixel
`(5, 0)`. -/
theorem tile_example_coverage_fails :
    5 < flatExample.height ∧ 0 < flatExample.width ∧
    ¬ ∃ t ∈ tile_example flatExample 2 10,
        t.1 ≤ 5 ∧ 5 < t.1 + 2 ∧ t.2.1 ≤ 0 ∧ 0 < t.2.1 + 2 := by
  refine ⟨by norm_num [flatExample], by norm_num [flatExample], ?_⟩
  intro hc
  obtain ⟨t, ht, h1, h2, -, -⟩ := hc
  rw [tile_example] at ht
  obtain ⟨r, hr, ht2⟩ := List.mem_flatMap.1 ht
  obtain ⟨c, -, rfl⟩ := List.mem_map.1 ht2
  have : r ∈ tileAnchors flatExample.height 2 10 := hr
  rw [show flatExample.height = 30 from rfl] at this
  rw [show tileAnchors 30 2 10 = [0, 10, 20, 28] from rfl] at this
  simp only [List.mem_cons, List.mem_singleton, List.not_mem_nil] at this
  rcases this with rfl | rfl | rfl | (rfl | h)
  · omega
  · omega
  · omega
  · omega
  · exact h

/-- C5, amended: for valid tiling parameters
(`0 < stride ≤ tile ≤ height, width`), `tile_example` returns the
row-major grid of tiles over strictly increasing anchor positions; the
tile windows stay inside the image and together cover the full extent;
the final tile is exactly the trailing window anchored at
`(height - tile, width - tile)`; non-spatial fields are copied verbatim
into every tile; and each tile's activity table keeps exactly the rows
whose label has an instance-mask pixel inside that tile's window. -/
theorem tile_example_spec (ex : TileExample) (T S : ℕ) (hS : 0 < S)
    (hST : S ≤ T) (hH : T ≤ ex.height) (hW : T ≤ ex.width) :
    (tile_example ex T S =
      (tileAnchors ex.height T S).flatMap (fun r =>
        (tileAnchors ex.width T S).map (fun c => (r, c, cropTile ex r c T)))) ∧
    List.Pairwise (· < ·) (tileAnchors ex.height T S) ∧
    List.Pairwise (· < ·) (tileAnchors ex.width T S) ∧
    (∀ t ∈ tile_example ex T S,
      t.1 + T ≤ ex.height ∧ t.2.1 + T ≤ ex.width) ∧
    (∀ i < ex.height, ∀ j < ex.width, ∃ t ∈ tile_example ex T S,
      t.1 ≤ i ∧ i < t.1 + T ∧ t.2.1 ≤ j ∧ j < t.2.1 + T) ∧
    ((tile_example ex T S).getLast? =
      some (ex.height - T, ex.width - T,
        cropTile ex (ex.height - T) (ex.width - T) T)) ∧
    (∀ t ∈ tile_example ex T S,
      t.2.2.marker = ex.marker ∧ t.2.2.dataset = ex.dataset ∧
      t.2.2.platform = ex.platform ∧ t.2.2.folder_name = ex.folder_name) ∧
    (∀ t ∈ tile_example ex T S,
      t.2.2.marker_activity = ex.marker_activity.filter
        (fun row => labelInWindow ex row.1 t.1 t.2.1 T)) ∧
    (∀ lab r c, labelInWindow ex lab r c T = true ↔
      ∃ i < T, ∃ j < T, ex.instance_mask (r + i) (c + j) = lab) := by
  have hmemtile : ∀ t ∈ tile_example ex T S,
      ∃ r ∈ tileAnchors ex.height T S, ∃ c ∈ tileAnchors ex.width T S,
        t = (r, c, cropTile ex r c T) := by
    intro t ht
    rw [tile_example] at ht
    obtain ⟨r, hr, ht2⟩ := List.mem_flatMap.1 ht
    obtain ⟨c, hc, rfl⟩ := List.mem_map.1 ht2
    exact ⟨r, hr, c, hc, rfl⟩
  refine ⟨rfl, tileAnchors_sorted _ _ _ hS, tileAnchors_sorted _ _ _ hS,
    ?_, ?_, ?_, ?_, ?_, ?_⟩
  · intro t ht
    obtain ⟨r, hr, c, hc, rfl⟩ := hmemtile t ht
    exact ⟨tileAnchors_add_le _ _ _ hH r hr, tileAnchors_add_le _ _ _ hW c hc⟩
  · intro i hi j hj
    obtain ⟨r, hr, hr1, hr2⟩ := tileAnchors_cover _ _ _ hS hST hH i hi
    obtain ⟨c, hc, hc1, hc2⟩ := tileAnchors_cover _ _ _ hS hST hW j hj
    refine ⟨(r, c, cropTile ex r c T), ?_, hr1, hr2, hc1, hc2⟩
    rw [tile_example]
    exact List.mem_flatMap.2 ⟨r, hr, List.mem_map.2 ⟨c, hc, rfl⟩⟩
  · have hne : tileAnchors ex.width T S ≠ [] := by
      intro hc
      have h := tileAnchors_getLast ex.width T S
      rw [hc] at h
      exact Option.noConfusion h
    rw [tile_example, getLast?_flatMap_map _ _ _ hne, tileAnchors_getLast,
      Option.some_bind, List.getLast?_map, tileAnchors_getLast,
      Option.map_some']
  · intro t ht
    obtain ⟨r, hr, c, hc, rfl⟩ := hmemtile t ht
    exact ⟨rfl, rfl, rfl, rfl⟩
  · intro t ht
    obtain ⟨r, hr, c, hc, rfl⟩ := hmemtile t ht
    rfl
  · intro lab r c
    simp [labelInWindow, List.mem_range]

/-- Witness for C5 on the 30×30 example with tile size `10` and stride
`10`: the pixel `(29, 29)` is covered by some tile and the final tile
is the trailing window anchored at `(20, 20)`. -/
theorem tile_example_spec_witness :
    (∃ t ∈ tile_example flatExample 10 10,
      t.1 ≤ 29 ∧ 29 < t.1 + 10 ∧ t.2.1 ≤ 29 ∧ 29 < t.2.1 + 10) ∧
    (tile_example flatExample 10 10).getLast? =
      some (20, 20, cropTile flatExample 20 20 10) := by
  obtain ⟨-, -, -, -, h5, h6, -, -, -⟩ :=
    tile_example_spec flatExample 10 10 (by norm_num)
      (by norm_num) (by norm_num [flatExample]) (by norm_num [flatExample])
  exact ⟨h5 29 (by norm_num [flatExample]) 29 (by norm_num [flatExample]), h6⟩

end CellClassification
